import Mathlib

/-!
Verification of the transMap filtering module (CAT/filter_transmap.py).

The embedding models the three core stages of the module over explicit
lists of records:

* the composite scorer (calculate_synteny_score),
* the paralog resolver (resolve_paralogs),
* the split-gene resolver (resolve_split_genes),
* the per-biotype distribution fitter (the loop body of fit_distributions),
  over an IEEE-style value domain with nan and infinities, since the
  fitter works with float transcendentals.

Numeric table columns (coverage, identity, synteny, scores) are embedded
as exact rationals; the fitter, which applies log and exp, is embedded
over the reals extended with nan and signed infinities.

The Python table columns TranscriptClass and ParalogStatus are embedded
as the inductive types TxCls and PStatus below (the field name
TranscriptClass itself is abbreviated TranscriptCls).
-/

/-- Statistical label assigned by the distribution fitter
(column TranscriptClass of the source). -/
inductive TxCls where
  | passing
  | failing
deriving DecidableEq

/-- Paralog-resolution confidence label (column ParalogStatus of the
source); the value None of the source is embedded as Option.none. -/
inductive PStatus where
  | Confident
  | NotConfident
deriving DecidableEq

/-- One row of the alignment-evaluation table after the fitter has
attached its label: the input of resolve_paralogs. -/
structure AlnRow where
  AlignmentId : String
  TranscriptId : String
  GeneId : String
  TranscriptBiotype : String
  TransMapIdentity : ℚ
  TransMapCoverage : ℚ
  Synteny : ℚ
  Paralogy : ℕ
  TranscriptCls : TxCls
deriving DecidableEq

/-- Propositional filter on lists, used instead of the Bool-valued
List.filter so that rational-valued conditions stay readable in proofs. -/
def filterP (p : α → Prop) [DecidablePred p] : List α → List α
  | [] => []
  | x :: xs => if p x then x :: filterP p xs else filterP p xs

/-- First element satisfying a decidable predicate, if any. -/
def findFirst (p : α → Prop) [DecidablePred p] : List α → Option α
  | [] => none
  | x :: xs => if p x then some x else findFirst p xs

/-- Keys of a list in first-encounter order, without repetitions.  The
source groups rows with pandas groupby, which sorts group keys; no claim
below depends on the relative order of distinct groups, and for every
concrete input used here the first-encounter order coincides with the
sorted order. -/
def dedupFirst [DecidableEq α] (seen : List α) : List α → List α
  | [] => []
  | x :: xs => if x ∈ seen then dedupFirst seen xs else x :: dedupFirst (x :: seen) xs

/-- Composite scorer of the source (calculate_synteny_score):
0.2 * TransMapCoverage + 0.3 * TransMapIdentity + 0.5 * (1.0 * Synteny / 6). -/
def calculate_synteny_score (s : AlnRow) : ℚ :=
  0.2 * s.TransMapCoverage + 0.3 * s.TransMapIdentity + 0.5 * (1 * s.Synteny / 6)

/-- The scorer together with its assertion 0 <= r <= 100: the source
raises AssertionError when the bound fails, embedded as none. -/
def calculate_synteny_score_checked (s : AlnRow) : Option ℚ :=
  if 0 ≤ calculate_synteny_score s ∧ calculate_synteny_score s ≤ 100 then
    some (calculate_synteny_score s)
  else none

/-- Alignment row carrying the derived Score column. -/
structure ScoredRow extends AlnRow where
  Score : ℚ
deriving DecidableEq

/-- Attach the Score column to every row
(updated_aln_eval_df.apply(calculate_synteny_score, axis=1)); none when
the scorer assertion fires on some row. -/
def scoreRows : List AlnRow → Option (List ScoredRow)
  | [] => some []
  | r :: rs =>
    match calculate_synteny_score_checked r, scoreRows rs with
    | some q, some rest => some ({ r with Score := q } :: rest)
    | _, _ => none

/-- Stable insertion of a row into a list sorted by descending Score:
the inserted row comes from earlier in the original list than every row
of the target, so it goes before the first strictly smaller score and
also before no tie. -/
def insertDesc (x : ScoredRow) : List ScoredRow → List ScoredRow
  | [] => [x]
  | y :: ys => if y.Score ≤ x.Score then x :: y :: ys else y :: insertDesc x ys

/-- Stable sort by descending Score
(sort_values(by='Score', ascending=False)). -/
def sortScoreDesc : List ScoredRow → List ScoredRow
  | [] => []
  | x :: xs => insertDesc x (sortScoreDesc xs)

theorem insertDesc_perm (x : ScoredRow) (l : List ScoredRow) :
    List.Perm (insertDesc x l) (x :: l) := by
  induction l with
  | nil => simp [insertDesc]
  | cons y ys ih =>
    simp only [insertDesc]
    split
    · exact List.Perm.refl _
    · exact ((ih.cons y).trans (List.Perm.swap x y ys)).symm.symm

theorem sortScoreDesc_perm (l : List ScoredRow) :
    List.Perm (sortScoreDesc l) l := by
  induction l with
  | nil => exact List.Perm.refl _
  | cons x xs ih =>
    exact (insertDesc_perm x (sortScoreDesc xs)).trans (ih.cons x)

/-- Which arm of the per-transcript selection fired (used for the
per-biotype metrics counters of resolve_paralogs). -/
inductive ResPath where
  | noParalog
  | modelPrediction
  | syntenyHeuristic
  | arbitrarilyResolved
deriving DecidableEq

/-- Per-transcript loop body of resolve_paralogs, applied to one group
of rows sharing a TranscriptId, in the order the rows occur in the
score-sorted table.  Returns the surviving AlignmentId with its
ParalogStatus, and the path taken.  Note that the single-passing branch
of the source appends df.AlignmentId.iloc[0], the first row of the
score-sorted group, not the passing row. -/
def resolveGroup : List ScoredRow → (String × Option PStatus) × ResPath
  | [] => (("", none), ResPath.noParalog)
  | d0 :: rest =>
    if rest = [] then ((d0.AlignmentId, none), ResPath.noParalog)
    else
      if (filterP (fun r => r.TranscriptCls = TxCls.passing) (d0 :: rest)).length = 1 then
        ((d0.AlignmentId, some PStatus.Confident), ResPath.modelPrediction)
      else
        if (filterP (fun r => r.Score = d0.Score) (d0 :: rest)).length = 1 then
          ((d0.AlignmentId, some PStatus.Confident), ResPath.syntenyHeuristic)
        else
          ((d0.AlignmentId, some PStatus.NotConfident), ResPath.arbitrarilyResolved)

/-- The label rewrite applied after selection
(apply_label of resolve_paralogs): a NotConfident survivor is forced to
failing, every other row keeps its statistical label. -/
def apply_label (status : Option PStatus) (cls : TxCls) : TxCls :=
  if status = some PStatus.NotConfident then TxCls.failing else cls

/-- Per-biotype counters reported by resolve_paralogs. -/
structure ParalogMetrics where
  alignmentsDiscarded : ℕ
  modelPrediction : ℕ
  syntenyHeuristic : ℕ
  arbitrarilyResolved : ℕ
deriving DecidableEq

def ParalogMetrics.zero : ParalogMetrics := ⟨0, 0, 0, 0⟩

def ParalogMetrics.add (a b : ParalogMetrics) : ParalogMetrics :=
  ⟨a.alignmentsDiscarded + b.alignmentsDiscarded,
   a.modelPrediction + b.modelPrediction,
   a.syntenyHeuristic + b.syntenyHeuristic,
   a.arbitrarilyResolved + b.arbitrarilyResolved⟩

/-- Counter increments contributed by one transcript group: each of the
three multi-paralog arms discards len(df) - 1 alignments and counts one
resolution on its own counter. -/
def groupContrib (g : List ScoredRow) : ParalogMetrics :=
  match (resolveGroup g).2 with
  | ResPath.noParalog => ParalogMetrics.zero
  | ResPath.modelPrediction => ⟨g.length - 1, 1, 0, 0⟩
  | ResPath.syntenyHeuristic => ⟨g.length - 1, 0, 1, 0⟩
  | ResPath.arbitrarilyResolved => ⟨g.length - 1, 0, 0, 1⟩

/-- The merge of the survivor list with the scored table on AlignmentId
(pd.merge(status_df, updated_aln_eval_df, on='AlignmentId')), followed by
the TranscriptClass rewrite through apply_label. -/
structure ResolvedRow extends ScoredRow where
  ParalogStatus : Option PStatus
deriving DecidableEq

def mergeStatus (scored : List ScoredRow) (status : List (String × Option PStatus)) :
    List ResolvedRow :=
  status.filterMap (fun st =>
    (findFirst (fun r => r.AlignmentId = st.1) scored).map (fun r =>
      { r with
        TranscriptCls := apply_label st.2 r.TranscriptCls
        ParalogStatus := st.2 }))

/-- The paralog resolver (resolve_paralogs): scores every row, walks the
transcript groups of the score-sorted table, keeps one survivor per
transcript, and reports per-biotype counters.  Returns none when the
scorer assertion fires. -/
def resolve_paralogs (rows : List AlnRow) :
    Option (List (String × ParalogMetrics) × List ResolvedRow) :=
  (scoreRows rows).map (fun scored0 =>
    let scored := sortScoreDesc scored0
    let keys := dedupFirst [] (scored.map (fun r => r.TranscriptId))
    let groups := keys.map (fun k => filterP (fun r => r.TranscriptId = k) scored)
    let status := groups.map (fun g => (resolveGroup g).1)
    let biotypes := dedupFirst [] (scored.map (fun r => r.TranscriptBiotype))
    let metrics := biotypes.map (fun b =>
      (b, (filterP (fun g : List ScoredRow =>
              (g.head?.map (fun d => d.TranscriptBiotype)) = some b) groups).foldl
            (fun acc g => acc.add (groupContrib g)) ParalogMetrics.zero))
    (metrics, mergeStatus scored status))

/-- Genomic interval of one transcript object (chromosome plus
half-open span). -/
structure Iv where
  chrom : String
  start : ℤ
  stop : ℤ
deriving DecidableEq

/-- Transcript object obtained from the external transcript lookup:
chromosome, interval and name, keyed by AlignmentId.  Modelled from the
spec: the lookup maps an AlignmentId to (chromosome name, interval
start, interval end, transcript name); a missing AlignmentId is a fatal
error, so the lookup is embedded as a total map. -/
structure TxObj where
  chromosome : String
  start : ℤ
  stop : ℤ
  name : String
deriving DecidableEq

def TxObj.interval (t : TxObj) : Iv := ⟨t.chromosome, t.start, t.stop⟩

/-- Overlap of two intervals.  Modelled from the spec: a transcript is
assigned to the first merged interval that contains/overlaps it; merged
intervals are on one chromosome and contain the source intervals, so
proper overlap on the same chromosome is the membership test. -/
def Iv.overlap (a b : Iv) : Prop :=
  a.chrom = b.chrom ∧ a.start < b.stop ∧ b.start < a.stop

instance (a b : Iv) : Decidable (Iv.overlap a b) := by
  unfold Iv.overlap
  exact inferInstance

/-- Stable insertion into a list of intervals ascending by start. -/
def insertIvAsc (x : Iv) : List Iv → List Iv
  | [] => [x]
  | y :: ys => if x.start ≤ y.start then x :: y :: ys else y :: insertIvAsc x ys

def sortIvByStart : List Iv → List Iv
  | [] => []
  | x :: xs => insertIvAsc x (sortIvByStart xs)

/-- Zero-gap interval merging.  Modelled from the spec:
tools.intervals.gap_merge_intervals with gap 0 merges two intervals of
one chromosome when they overlap or are exactly adjacent with no gap;
the input here is sorted ascending by start. -/
def gap_merge_intervals : List Iv → List Iv
  | [] => []
  | [i] => [i]
  | i :: j :: rest =>
    if j.start ≤ i.stop then
      gap_merge_intervals (⟨i.chrom, i.start, max i.stop j.stop⟩ :: rest)
    else
      i :: gap_merge_intervals (j :: rest)
termination_by l => l.length

/-- Index of the first element satisfying a decidable predicate. -/
def findIdxFirst (p : α → Prop) [DecidablePred p] : List α → Option ℕ
  | [] => none
  | x :: xs => if p x then some 0 else (findIdxFirst p xs).map (fun n => n + 1)

/-- The cluster_gene helper of resolve_split_genes: split a gene's
transcript objects by chromosome, gap-merge each chromosome's intervals,
and assign every transcript name to the first merged interval that
overlaps it.  Returns the clusters as (merged-interval index, transcript
names) pairs in first-encounter order. -/
def cluster_gene (txs : List TxObj) : List (ℕ × List String) :=
  let chroms := dedupFirst [] (txs.map (fun t => t.chromosome))
  let merged := chroms.flatMap (fun c =>
    gap_merge_intervals (sortIvByStart
      ((filterP (fun t => t.chromosome = c) txs).map TxObj.interval)))
  let pairs := txs.filterMap (fun t =>
    (findIdxFirst (fun iv => Iv.overlap iv t.interval) merged).map (fun i => (i, t.name)))
  (dedupFirst [] (pairs.map (fun p => p.1))).map (fun i =>
    (i, (filterP (fun p : ℕ × String => p.1 = i) pairs).map (fun p => p.2)))

/-- Mean Score of the rows whose AlignmentId is among the given cluster
names.  The source takes a pandas mean, which is nan for an empty
selection; no input below reaches the empty case, embedded as 0. -/
def clusterMean (rec : List ResolvedRow) (names : List String) : ℚ :=
  let ms := filterP (fun r => r.AlignmentId ∈ names) rec
  (ms.map (fun r => r.Score)).sum / ms.length

/-- The find_best_cluster helper: the cluster with the highest mean
Score, ties broken in favour of the earlier cluster (the source sorts
descending with a stable sort); none for an empty cluster dict, where
the source would raise IndexError. -/
def find_best_cluster (rec : List ResolvedRow) :
    List (ℕ × List String) → Option (ℕ × List String)
  | [] => none
  | c :: cs =>
    some (cs.foldl (fun best cc =>
      if clusterMean rec best.2 < clusterMean rec cc.2 then cc else best) c)

/-- The is_split_chrom_gene helper: more than one distinct chromosome
among the gene's transcript objects. -/
def is_split_chrom_gene (txs : List TxObj) : Bool :=
  (dedupFirst [] (txs.map (fun t => t.chromosome))).length ≠ 1

/-- The is_split_same_chrom_gene helper: two clusters share the
chromosome of their first member. -/
def is_split_same_chrom_gene (txLookup : String → TxObj)
    (clusters : List (ℕ × List String)) : Bool :=
  let cl_chroms := clusters.filterMap (fun c => c.2.head?.map (fun n => (txLookup n).chromosome))
  cl_chroms.length ≠ (dedupFirst [] cl_chroms).length

/-- One row of the SplitGeneStatus table built by resolve_split_genes. -/
structure SplitRow where
  TranscriptId : String
  GeneAlternateContigs : Option String
  SplitGene : Bool
deriving DecidableEq

/-- Metrics dict of resolve_split_genes; the transcripts-removed key is
only present when removal is requested. -/
structure SplitMetrics where
  contigSplitGenes : ℕ
  intraContigSplitGenes : ℕ
  transcriptsRemoved : Option ℕ
deriving DecidableEq

/-- Output row of resolve_split_genes: the paralog-resolved row joined
with its SplitGeneStatus columns. -/
structure FinalRow extends ResolvedRow where
  GeneAlternateContigs : Option String
  SplitGene : Bool
deriving DecidableEq

/-- Per-gene loop of resolve_split_genes, over the gene keys in order.
The accumulator stale is the Python loop variable tx_id: the
single-cluster arm leaks the last TranscriptId of its list
comprehension into the enclosing scope, and both split arms then read
that leaked variable when they append their single status row
(split_status.extend([[tx_id, ...]])); if no single-cluster gene came
first the source raises NameError, embedded as none.  Returns the
status rows, the ids collected for removal, and the contig-split and
intra-contig-split counters. -/
def splitGeneLoop (txLookup : String → TxObj) (rows : List ResolvedRow) :
    List String → Option String → Option (List SplitRow × List String × ℕ × ℕ)
  | [], _ => some ([], [], 0, 0)
  | g :: gs, stale =>
    let grp := filterP (fun r => r.GeneId = g) rows
    let geneTxs := grp.map (fun r => txLookup r.AlignmentId)
    let clusters := cluster_gene geneTxs
    if clusters.length = 1 then
      let stale2 := match (grp.map (fun r => r.TranscriptId)).getLast? with
        | some t => some t
        | none => stale
      match splitGeneLoop txLookup rows gs stale2 with
      | none => none
      | some (srows, rem, cs, ics) =>
        some ((grp.map (fun r => SplitRow.mk r.TranscriptId none false)) ++ srows,
              rem, cs, ics)
    else
      match find_best_cluster grp clusters with
      | none => none
      | some best =>
        let removeAdd := (filterP (fun r => ¬ r.TranscriptId ∈ best.2) grp).map
          (fun r => r.TranscriptId)
        match stale with
        | none => none
        | some staleTx =>
          if is_split_chrom_gene geneTxs then
            match best.2.head? with
            | none => none
            | some c0 =>
              let chrom := (txLookup c0).chromosome
              let otherContigs := String.intercalate ","
                (dedupFirst [] (filterP (fun c => ¬ c = chrom)
                  (geneTxs.map (fun t => t.chromosome))))
              let ls := is_split_same_chrom_gene txLookup clusters
              match splitGeneLoop txLookup rows gs stale with
              | none => none
              | some (srows, rem, cs, ics) =>
                some (SplitRow.mk staleTx (some otherContigs) ls :: srows,
                      removeAdd ++ rem, cs + 1, ics + (if ls then 1 else 0))
          else
            match splitGeneLoop txLookup rows gs stale with
            | none => none
            | some (srows, rem, cs, ics) =>
              some (SplitRow.mk staleTx none true :: srows,
                    removeAdd ++ rem, cs, ics + 1)

/-- The split-gene resolver (resolve_split_genes): walk the gene groups,
build the SplitGeneStatus rows, inner-join them onto the
paralog-resolved table on TranscriptId, and, when requested, drop the
rows whose AlignmentId was collected for removal. -/
def resolve_split_genes (rows : List ResolvedRow) (txLookup : String → TxObj)
    (remove_split_genes : Bool) : Option (SplitMetrics × List FinalRow) :=
  let genes := dedupFirst [] (rows.map (fun r => r.GeneId))
  match splitGeneLoop txLookup rows genes none with
  | none => none
  | some (srows, removeList, cs, ics) =>
    let merged := rows.flatMap (fun r =>
      (filterP (fun s => s.TranscriptId = r.TranscriptId) srows).map (fun s =>
        FinalRow.mk r s.GeneAlternateContigs s.SplitGene))
    if remove_split_genes then
      some (SplitMetrics.mk cs ics (some (dedupFirst [] removeList).length),
            filterP (fun f => ¬ f.AlignmentId ∈ removeList) merged)
    else
      some (SplitMetrics.mk cs ics none, merged)

/-- Value domain of the distribution fitter: the source computes with
floats, whose log/exp/mean pipeline can produce nan and signed
infinities that the fitter then branches on (np.isnan / np.isinf).
Rounding is not modelled; finite values are exact reals. -/
inductive RVal where
  | fin (r : ℝ)
  | pinf
  | ninf
  | nan

/-- IEEE-style addition with nan propagation. -/
def RVal.add : RVal → RVal → RVal
  | RVal.nan, _ => RVal.nan
  | _, RVal.nan => RVal.nan
  | RVal.fin a, RVal.fin b => RVal.fin (a + b)
  | RVal.fin _, RVal.pinf => RVal.pinf
  | RVal.fin _, RVal.ninf => RVal.ninf
  | RVal.pinf, RVal.fin _ => RVal.pinf
  | RVal.pinf, RVal.pinf => RVal.pinf
  | RVal.pinf, RVal.ninf => RVal.nan
  | RVal.ninf, RVal.fin _ => RVal.ninf
  | RVal.ninf, RVal.pinf => RVal.nan
  | RVal.ninf, RVal.ninf => RVal.ninf

def RVal.neg : RVal → RVal
  | RVal.fin a => RVal.fin (-a)
  | RVal.pinf => RVal.ninf
  | RVal.ninf => RVal.pinf
  | RVal.nan => RVal.nan

def RVal.sub (a b : RVal) : RVal := RVal.add a (RVal.neg b)

/-- Squaring, used for the maximum-likelihood variance. -/
def RVal.sq : RVal → RVal
  | RVal.fin a => RVal.fin (a ^ 2)
  | RVal.pinf => RVal.pinf
  | RVal.ninf => RVal.pinf
  | RVal.nan => RVal.nan

/-- IEEE-style exponential: exp(-inf) is 0, exp(inf) is inf. -/
noncomputable def RVal.expV : RVal → RVal
  | RVal.fin a => RVal.fin (Real.exp a)
  | RVal.pinf => RVal.pinf
  | RVal.ninf => RVal.fin 0
  | RVal.nan => RVal.nan

noncomputable def RVal.sqrtV : RVal → RVal
  | RVal.fin a => if 0 ≤ a then RVal.fin (Real.sqrt a) else RVal.nan
  | RVal.pinf => RVal.pinf
  | RVal.ninf => RVal.nan
  | RVal.nan => RVal.nan

/-- Division by a sample size. -/
noncomputable def RVal.divNat (v : RVal) (n : ℕ) : RVal :=
  match v with
  | RVal.fin a => if n = 0 then RVal.nan else RVal.fin (a / n)
  | RVal.pinf => if n = 0 then RVal.nan else RVal.pinf
  | RVal.ninf => if n = 0 then RVal.nan else RVal.ninf
  | RVal.nan => RVal.nan

def RVal.isnan : RVal → Bool
  | RVal.nan => true
  | _ => false

def RVal.isinf : RVal → Bool
  | RVal.pinf => true
  | RVal.ninf => true
  | _ => false

/-- The float comparison ident >= cutoff of the source: any comparison
with nan is false. -/
def RVal.geR (x : ℝ) : RVal → Prop
  | RVal.fin c => c ≤ x
  | RVal.pinf => False
  | RVal.ninf => True
  | RVal.nan => False

def sumR (l : List RVal) : RVal := l.foldr RVal.add (RVal.fin 0)

/-- Mean of a sample; numpy's mean of an empty array is nan. -/
noncomputable def meanR (l : List RVal) : RVal :=
  match l with
  | [] => RVal.nan
  | _ => RVal.divNat (sumR l) l.length

/-- One row of the merged alignment-evaluation/annotation table as the
fitter sees it (identity as a real number, since the fitter applies
log and exp to it). -/
structure FitRow where
  AlignmentId : String
  TranscriptBiotype : String
  TransMapIdentity : ℝ
  Paralogy : ℕ

section FitterSection

open scoped Classical

/-- The identities with the value 100 excluded
(idents[idents != 100] of transform_data). -/
noncomputable def removeHundred : List ℝ → List ℝ
  | [] => []
  | x :: xs => if x = 100 then removeHundred xs else x :: removeHundred xs

/-- The real log as numpy computes it: log of a negative number is nan,
log of zero is -inf. -/
noncomputable def logR (x : ℝ) : RVal :=
  if 0 < x then RVal.fin (Real.log x) else if x = 0 then RVal.ninf else RVal.nan

/-- The transform_data helper of fit_distributions:
x = -log(100 - ident) over the identities different from 100. -/
noncomputable def transform_data (idents : List ℝ) : List RVal :=
  (removeHundred idents).map (fun i => RVal.neg (logR (100 - i)))

/-- Maximum-likelihood normal fit (scipy.stats.norm.fit): the sample
mean and the square root of the mean squared deviation. -/
noncomputable def norm_fit (data : List RVal) : RVal × RVal :=
  (meanR data,
   RVal.sqrtV (meanR (data.map (fun x => RVal.sq (RVal.sub x (meanR data))))))

/-- The find_cutoff helper of fit_distributions with its default
num_sigma = 1: 100 - exp(-(mu - sigma)) over the transformed unique
identities. -/
noncomputable def find_cutoff (biotype_unique : List FitRow) : RVal :=
  RVal.sub (RVal.fin 100)
    (RVal.expV (RVal.neg (RVal.sub
      (norm_fit (transform_data (biotype_unique.map (fun r => r.TransMapIdentity)))).1
      (norm_fit (transform_data (biotype_unique.map (fun r => r.TransMapIdentity)))).2)))

/-- Loop body of fit_distributions for one biotype group: split into
unique (Paralogy = 1) and non-unique rows, short-circuit the empty
cases, otherwise fit the cutoff, record it, and label every row of the
group. -/
noncomputable def fit_biotype (df : List FitRow) : List (String × TxCls) × Option RVal :=
  let biotype_unique := filterP (fun r => r.Paralogy = 1) df
  let biotype_not_unique := filterP (fun r => ¬ r.Paralogy = 1) df
  if biotype_not_unique.length = 0 then
    (df.map (fun r => (r.AlignmentId, TxCls.passing)), none)
  else if biotype_unique.length = 0 then
    (df.map (fun r => (r.AlignmentId, TxCls.failing)), none)
  else
    let cutoff := find_cutoff biotype_unique
    if cutoff.isnan ∨ cutoff.isinf then
      (df.map (fun r => (r.AlignmentId, TxCls.passing)), some cutoff)
    else
      (df.map (fun r =>
        (r.AlignmentId,
         if RVal.geR r.TransMapIdentity cutoff then TxCls.passing else TxCls.failing)),
       some cutoff)

/-- The full fitter (fit_distributions): per-biotype labels and the
BiotypeCutoff table, one row per distinct biotype. -/
noncomputable def fit_distributions (rows : List FitRow) :
    List (String × TxCls) × List (String × Option RVal) :=
  let biotypes := dedupFirst [] (rows.map (fun r => r.TranscriptBiotype))
  let per := biotypes.map (fun b =>
    (b, fit_biotype (filterP (fun r => r.TranscriptBiotype = b) rows)))
  ((per.map (fun p => p.2.1)).flatten, per.map (fun p => (p.1, p.2.2)))

/-- Transformed sample as the spec words it: transform identities
excluding the value 100 via x = -ln(100 - identity). -/
noncomputable def spec_transform (idents : List ℝ) : List ℝ :=
  (filterP (fun i => ¬ i = 100) idents).map (fun i => -Real.log (100 - i))

/-- Maximum-likelihood mean of the spec. -/
noncomputable def spec_mu (xs : List ℝ) : ℝ := xs.sum / xs.length

/-- Maximum-likelihood standard deviation of the spec. -/
noncomputable def spec_sigma (xs : List ℝ) : ℝ :=
  Real.sqrt ((xs.map (fun x => (x - spec_mu xs) ^ 2)).sum / xs.length)

/-- The cutoff as the spec words it: 100 - exp(-(mu - sigma)) over the
transformed unique-sample identities. -/
noncomputable def spec_cutoff (idents : List ℝ) : ℝ :=
  100 - Real.exp (-(spec_mu (spec_transform idents) - spec_sigma (spec_transform idents)))

end FitterSection

/-- Concrete row used for the C7 witness. -/
def wRow : AlnRow := ⟨"w-1", "w", "gw", "bio", 90, 80, 3, 1, TxCls.passing⟩

/-- C7: for coverage and identity in [0,100] and synteny in [0,6] the
composite score lies in [0,100] and the scorer's assertion does not
fire; for any row whose score falls outside [0,100] the scorer raises
(returns none) instead of clamping. -/
theorem score_bounds_and_assert (s : AlnRow)
    (hc0 : 0 ≤ s.TransMapCoverage) (hc1 : s.TransMapCoverage ≤ 100)
    (hi0 : 0 ≤ s.TransMapIdentity) (hi1 : s.TransMapIdentity ≤ 100)
    (hs0 : 0 ≤ s.Synteny) (hs1 : s.Synteny ≤ 6) :
    (0 ≤ calculate_synteny_score s ∧ calculate_synteny_score s ≤ 100 ∧
      calculate_synteny_score_checked s = some (calculate_synteny_score s)) ∧
    (∀ t : AlnRow, calculate_synteny_score t < 0 ∨ 100 < calculate_synteny_score t →
      calculate_synteny_score_checked t = none) := by
  have h0 : 0 ≤ calculate_synteny_score s := by
    unfold calculate_synteny_score
    linarith
  have h1 : calculate_synteny_score s ≤ 100 := by
    unfold calculate_synteny_score
    linarith
  refine ⟨⟨h0, h1, ?_⟩, ?_⟩
  · unfold calculate_synteny_score_checked
    rw [if_pos ⟨h0, h1⟩]
  · intro t ht
    unfold calculate_synteny_score_checked
    rw [if_neg]
    rcases ht with ht | ht
    · intro hcon
      exact absurd hcon.1 (not_le.mpr ht)
    · intro hcon
      exact absurd hcon.2 (not_le.mpr ht)

theorem score_bounds_and_assert_witness :
    calculate_synteny_score_checked wRow = some (calculate_synteny_score wRow) :=
  (score_bounds_and_assert wRow (by norm_num [wRow]) (by norm_num [wRow])
    (by norm_num [wRow]) (by norm_num [wRow]) (by norm_num [wRow])
    (by norm_num [wRow])).1.2.2

/-- Concrete row used for the C4 counterexample and witness: no
coverage, no identity, full synteny support. -/
def zeroCovRow : AlnRow := ⟨"z-1", "z", "gz", "bio", 0, 0, 6, 1, TxCls.passing⟩

/-- C4 counterexample: at coverage 0, identity 0 and synteny 6 the
composite score is 1/2, not the 50 the claim asserts for the synteny
component. -/
theorem synteny_component_not_fifty :
    zeroCovRow.TransMapCoverage = 0 ∧ zeroCovRow.TransMapIdentity = 0 ∧
    zeroCovRow.Synteny = 6 ∧
    calculate_synteny_score zeroCovRow = 1 / 2 ∧
    ¬ calculate_synteny_score zeroCovRow =
        0.2 * zeroCovRow.TransMapCoverage + 0.3 * zeroCovRow.TransMapIdentity + 50 := by
  norm_num [zeroCovRow, calculate_synteny_score]

/-- C4 amended: the synteny term scales Synteny/6 by 0.5, so a record
with Synteny = 6 receives half a point from the synteny component. -/
theorem synteny_component_half_point (s : AlnRow) (h : s.Synteny = 6) :
    calculate_synteny_score s =
      0.2 * s.TransMapCoverage + 0.3 * s.TransMapIdentity + 1 / 2 := by
  unfold calculate_synteny_score
  rw [h]
  norm_num

theorem synteny_component_half_point_witness :
    calculate_synteny_score zeroCovRow =
      0.2 * zeroCovRow.TransMapCoverage + 0.3 * zeroCovRow.TransMapIdentity + 1 / 2 :=
  synteny_component_half_point zeroCovRow (by norm_num [zeroCovRow])

theorem mem_filterP (p : α → Prop) [DecidablePred p] (l : List α) (a : α) :
    a ∈ filterP p l ↔ a ∈ l ∧ p a := by
  induction l with
  | nil => simp [filterP]
  | cons x xs ih =>
    by_cases hx : p x
    · simp only [filterP, if_pos hx, List.mem_cons, ih]
      constructor
      · rintro (rfl | ⟨h1, h2⟩)
        · exact ⟨Or.inl rfl, hx⟩
        · exact ⟨Or.inr h1, h2⟩
      · rintro ⟨rfl | h, hp⟩
        · exact Or.inl rfl
        · exact Or.inr ⟨h, hp⟩
    · simp only [filterP, if_neg hx, ih, List.mem_cons]
      constructor
      · rintro ⟨h1, h2⟩
        exact ⟨Or.inr h1, h2⟩
      · rintro ⟨rfl | h, hp⟩
        · exact absurd hp hx
        · exact ⟨h, hp⟩

/-- C8: in a transcript group of at least two rows, led by a row of
maximal Score with at least one other row tied at that Score, and not
resolved by the single-passing rule, the resolver keeps the first row
in encountered order with ParalogStatus NotConfident; the subsequent
label rewrite forces a NotConfident survivor to failing and leaves
every other ParalogStatus value's label unchanged. -/
theorem paralog_tie_arbitrary_resolution (d0 : ScoredRow) (rest : List ScoredRow)
    (hne : rest ≠ [])
    (_hmax : ∀ r ∈ rest, r.Score ≤ d0.Score)
    (htie : ∃ r ∈ rest, r.Score = d0.Score)
    (hpass : (filterP (fun r => r.TranscriptCls = TxCls.passing) (d0 :: rest)).length ≠ 1) :
    resolveGroup (d0 :: rest) =
      ((d0.AlignmentId, some PStatus.NotConfident), ResPath.arbitrarilyResolved) ∧
    (∀ cls : TxCls, apply_label (some PStatus.NotConfident) cls = TxCls.failing) ∧
    (∀ st : Option PStatus, ∀ cls : TxCls, st ≠ some PStatus.NotConfident →
      apply_label st cls = cls) := by
  obtain ⟨r, hr, hrs⟩ := htie
  have hsplit : filterP (fun q : ScoredRow => q.Score = d0.Score) (d0 :: rest)
      = d0 :: filterP (fun q : ScoredRow => q.Score = d0.Score) rest := by
    simp [filterP]
  have hrestne : filterP (fun q : ScoredRow => q.Score = d0.Score) rest ≠ [] := by
    intro h0
    have hmem := (mem_filterP (fun q : ScoredRow => q.Score = d0.Score) rest r).mpr ⟨hr, hrs⟩
    rw [h0] at hmem
    exact absurd hmem (List.not_mem_nil r)
  have hlen : (filterP (fun q : ScoredRow => q.Score = d0.Score) (d0 :: rest)).length ≠ 1 := by
    rw [hsplit]
    have hpos : 0 < (filterP (fun q : ScoredRow => q.Score = d0.Score) rest).length :=
      List.length_pos.mpr hrestne
    simp only [List.length_cons]
    omega
  refine ⟨?_, fun cls => rfl, fun st cls hst => ?_⟩
  · simp only [resolveGroup]
    rw [if_neg hne, if_neg hpass, if_neg hlen]
  · unfold apply_label
    rw [if_neg hst]

/-- Rows used for the C8 witness: two failing alignments of one
transcript tied at Score 55. -/
def tieRowA : ScoredRow := ⟨⟨"t-1", "t", "gt", "bio", 50, 50, 0, 2, TxCls.failing⟩, 55⟩

def tieRowB : ScoredRow := ⟨⟨"t-2", "t", "gt", "bio", 50, 50, 0, 2, TxCls.failing⟩, 55⟩

theorem paralog_tie_arbitrary_resolution_witness :
    resolveGroup [tieRowA, tieRowB] =
      ((tieRowA.AlignmentId, some PStatus.NotConfident), ResPath.arbitrarilyResolved) ∧
    (∀ cls : TxCls, apply_label (some PStatus.NotConfident) cls = TxCls.failing) ∧
    (∀ st : Option PStatus, ∀ cls : TxCls, st ≠ some PStatus.NotConfident →
      apply_label st cls = cls) :=
  paralog_tie_arbitrary_resolution tieRowA [tieRowB] (by simp)
    (by
      intro r hr
      rw [List.mem_singleton] at hr
      subst hr
      norm_num [tieRowA, tieRowB])
    ⟨tieRowB, List.mem_singleton.mpr rfl, by norm_num [tieRowA, tieRowB]⟩
    (by simp [filterP, tieRowA, tieRowB])

/-- Rows used for the C1 failing input: one transcript with two
alignments, the failing one with the higher composite score (50), the
single passing one with the lower score (25). -/
def failHighRow : AlnRow := ⟨"p-1", "p", "gp", "bio", 100, 100, 0, 2, TxCls.failing⟩

def passLowRow : AlnRow := ⟨"p-2", "p", "gp", "bio", 50, 50, 0, 2, TxCls.passing⟩

/-- C1 (failing input): in a group whose single passing record does not
hold the top score, the resolver keeps the top-scoring failing record
p-1 with ParalogStatus Confident and counts a model-prediction
resolution with one discarded alignment, although the unique passing
record is p-2; the source takes df.AlignmentId.iloc[0] in the
single-passing branch instead of the passing record. -/
theorem paralog_single_passing_keeps_top_score :
    (filterP (fun r => r.TranscriptCls = TxCls.passing) [failHighRow, passLowRow]).map
        (fun r => r.AlignmentId) = ["p-2"] ∧
    resolve_paralogs [failHighRow, passLowRow] =
      some ([("bio", ⟨1, 1, 0, 0⟩)],
        [⟨⟨⟨"p-1", "p", "gp", "bio", 100, 100, 0, 2, TxCls.failing⟩, 50⟩,
          some PStatus.Confident⟩]) := by
  constructor
  · simp [filterP, failHighRow, passLowRow]
  · norm_num [resolve_paralogs, scoreRows, calculate_synteny_score_checked,
      calculate_synteny_score, failHighRow, passLowRow, sortScoreDesc, insertDesc,
      dedupFirst, filterP, resolveGroup, mergeStatus, findFirst, apply_label,
      groupContrib, ParalogMetrics.zero, ParalogMetrics.add] <;> decide

theorem filterP_eq_nil (p : α → Prop) [DecidablePred p] (l : List α)
    (h : ∀ x ∈ l, ¬ p x) : filterP p l = [] := by
  induction l with
  | nil => rfl
  | cons x xs ih =>
    simp only [filterP]
    rw [if_neg (h x (List.mem_cons_self x xs))]
    exact ih (fun y hy => h y (List.mem_cons_of_mem x hy))

theorem scoreRows_toAlnRow :
    ∀ rows scored, scoreRows rows = some scored →
      scored.map (fun r => r.toAlnRow) = rows := by
  intro rows
  induction rows with
  | nil =>
    intro scored h
    simp only [scoreRows, Option.some.injEq] at h
    subst h
    rfl
  | cons r rs ih =>
    intro scored h
    simp only [scoreRows] at h
    cases hc : calculate_synteny_score_checked r with
    | none => rw [hc] at h; exact absurd h (by simp)
    | some q =>
      cases hs : scoreRows rs with
      | none => rw [hc, hs] at h; exact absurd h (by simp)
      | some rest =>
        rw [hc, hs] at h
        simp only [Option.some.injEq] at h
        subst h
        simp only [List.map_cons, ih rest hs]

theorem dedupFirst_eq_self [DecidableEq α] :
    ∀ (l : List α) (seen : List α), l.Nodup → (∀ x ∈ l, x ∉ seen) →
      dedupFirst seen l = l := by
  intro l
  induction l with
  | nil => intro seen _ _; rfl
  | cons x xs ih =>
    intro seen hnd hdisj
    simp only [dedupFirst]
    rw [if_neg (hdisj x (List.mem_cons_self x xs))]
    congr 1
    refine ih (x :: seen) (List.Nodup.of_cons hnd) ?_
    intro y hy
    intro hmem
    rcases List.mem_cons.mp hmem with rfl | hmem2
    · exact absurd hy (List.Nodup.not_mem hnd)
    · exact absurd hmem2 (hdisj y (List.mem_cons_of_mem x hy))

theorem groups_of_nodup_keys [DecidableEq β] (f : α → β) :
    ∀ l : List α, (l.map f).Nodup →
      (l.map f).map (fun k => filterP (fun r => f r = k) l) = l.map (fun d => [d]) := by
  intro l
  induction l with
  | nil => intro _; rfl
  | cons d rest ih =>
    intro h
    have hd : f d ∉ rest.map f := by
      simp only [List.map_cons] at h
      exact List.Nodup.not_mem h
    have hrest : (rest.map f).Nodup := by
      simp only [List.map_cons] at h
      exact List.Nodup.of_cons h
    have hne : ∀ r ∈ rest, ¬ f r = f d := by
      intro r hr hcon
      exact hd (hcon ▸ List.mem_map_of_mem f hr)
    simp only [List.map_cons]
    congr 1
    · have hh : filterP (fun r => f r = f d) (d :: rest)
          = d :: filterP (fun r => f r = f d) rest := by
        simp [filterP]
      rw [hh, filterP_eq_nil _ rest hne]
    · have hcong : ∀ k ∈ rest.map f,
          filterP (fun r => f r = k) (d :: rest) = filterP (fun r => f r = k) rest := by
        intro k hk
        simp only [filterP]
        rw [if_neg]
        intro hcon
        exact hd (hcon ▸ hk)
      rw [List.map_congr_left hcong, ih hrest]

theorem findFirst_key [DecidableEq β] (f : α → β) :
    ∀ l : List α, (l.map f).Nodup → ∀ a ∈ l,
      findFirst (fun r => f r = f a) l = some a := by
  intro l
  induction l with
  | nil => intro _ a ha; exact absurd ha (List.not_mem_nil a)
  | cons x xs ih =>
    intro h a ha
    have hx : f x ∉ xs.map f := by
      simp only [List.map_cons] at h
      exact List.Nodup.not_mem h
    rcases List.mem_cons.mp ha with rfl | ha2
    · simp [findFirst]
    · have hne : ¬ f x = f a := by
        intro hcon
        exact hx (hcon ▸ List.mem_map_of_mem f ha2)
      simp only [findFirst]
      rw [if_neg hne]
      exact ih (by simp only [List.map_cons] at h; exact List.Nodup.of_cons h) a ha2

theorem resolveGroup_singleton (d : ScoredRow) :
    resolveGroup [d] = ((d.AlignmentId, none), ResPath.noParalog) := by
  simp [resolveGroup]

theorem apply_label_none (cls : TxCls) : apply_label none cls = cls := rfl

theorem mergeStatus_self (scored : List ScoredRow)
    (hA : (scored.map (fun r => r.AlignmentId)).Nodup) :
    ∀ sub : List ScoredRow, (∀ d ∈ sub, d ∈ scored) →
      mergeStatus scored (sub.map (fun d => (d.AlignmentId, (none : Option PStatus))))
        = sub.map (fun d => { toScoredRow := d, ParalogStatus := none }) := by
  intro sub
  induction sub with
  | nil => intro _; rfl
  | cons d ds ih =>
    intro hsub
    have hfind : findFirst (fun r => r.AlignmentId = d.AlignmentId) scored = some d :=
      findFirst_key (fun r => r.AlignmentId) scored hA d (hsub d (List.mem_cons_self d ds))
    simp only [List.map_cons, mergeStatus, List.filterMap_cons]
    rw [hfind]
    have hrest := ih (fun x hx => hsub x (List.mem_cons_of_mem d hx))
    simp only [mergeStatus] at hrest
    rw [hrest]
    rfl

/-- C9: running the paralog resolver on a table that already has exactly
one record per TranscriptId is a no-op: every record is retained with
its fields unchanged and its ParalogStatus set to none. -/
theorem paralog_resolver_singleton_noop (rows : List AlnRow)
    (m : List (String × ParalogMetrics)) (out : List ResolvedRow)
    (hTx : (rows.map (fun r => r.TranscriptId)).Nodup)
    (hAln : (rows.map (fun r => r.AlignmentId)).Nodup)
    (hres : resolve_paralogs rows = some (m, out)) :
    List.Perm (out.map (fun r => r.toAlnRow)) rows ∧
    ∀ r ∈ out, r.ParalogStatus = none := by
  rw [resolve_paralogs, Option.map_eq_some'] at hres
  obtain ⟨scored0, hs0, hg⟩ := hres
  have hback : scored0.map (fun r => r.toAlnRow) = rows :=
    scoreRows_toAlnRow rows scored0 hs0
  have hperm : List.Perm (sortScoreDesc scored0) scored0 := sortScoreDesc_perm scored0
  have hTx0 : (scored0.map (fun r => r.TranscriptId)).Nodup := by
    have heq : scored0.map (fun r => r.TranscriptId)
        = rows.map (fun r => r.TranscriptId) := by
      rw [← hback, List.map_map]
      rfl
    rw [heq]
    exact hTx
  have hTxS : ((sortScoreDesc scored0).map (fun r => r.TranscriptId)).Nodup :=
    ((hperm.map _).nodup_iff).mpr hTx0
  have hAln0 : (scored0.map (fun r => r.AlignmentId)).Nodup := by
    have heq : scored0.map (fun r => r.AlignmentId)
        = rows.map (fun r => r.AlignmentId) := by
      rw [← hback, List.map_map]
      rfl
    rw [heq]
    exact hAln
  have hAlnS : ((sortScoreDesc scored0).map (fun r => r.AlignmentId)).Nodup :=
    ((hperm.map _).nodup_iff).mpr hAln0
  have hkeys : dedupFirst [] ((sortScoreDesc scored0).map (fun r => r.TranscriptId))
      = (sortScoreDesc scored0).map (fun r => r.TranscriptId) :=
    dedupFirst_eq_self _ [] hTxS (fun x _ => List.not_mem_nil x)
  have hgroups := groups_of_nodup_keys (fun r : ScoredRow => r.TranscriptId)
    (sortScoreDesc scored0) hTxS
  have hout : mergeStatus (sortScoreDesc scored0)
      (((dedupFirst [] ((sortScoreDesc scored0).map (fun r => r.TranscriptId))).map
        (fun k => filterP (fun r => r.TranscriptId = k) (sortScoreDesc scored0))).map
          (fun g => (resolveGroup g).1)) = out :=
    congrArg Prod.snd hg
  rw [hkeys, hgroups, List.map_map] at hout
  have hstat : ((fun g => (resolveGroup g).1) ∘ fun d : ScoredRow => [d])
      = fun d : ScoredRow => (d.AlignmentId, (none : Option PStatus)) := by
    funext d
    simp [resolveGroup_singleton]
  rw [hstat] at hout
  rw [mergeStatus_self (sortScoreDesc scored0) hAlnS (sortScoreDesc scored0)
    (fun d hd => hd)] at hout
  constructor
  · rw [← hout, List.map_map]
    have hcomp : ((fun r : ResolvedRow => r.toAlnRow)
        ∘ fun d : ScoredRow => ({ toScoredRow := d, ParalogStatus := none } : ResolvedRow))
        = fun d : ScoredRow => d.toAlnRow := rfl
    rw [hcomp, ← hback]
    exact hperm.map _
  · intro r hr
    rw [← hout] at hr
    obtain ⟨d, _, rfl⟩ := List.mem_map.mp hr
    rfl

/-- Rows used for the C9 witness: two transcripts with one alignment
each. -/
def soloRowA : AlnRow := ⟨"s1-1", "s1", "gs", "bio", 100, 100, 6, 1, TxCls.passing⟩

def soloRowB : AlnRow := ⟨"s2-1", "s2", "gs", "bio", 50, 50, 0, 1, TxCls.failing⟩

theorem paralog_resolver_singleton_noop_witness :
    List.Perm (([⟨⟨soloRowA, 101 / 2⟩, none⟩, ⟨⟨soloRowB, 25⟩, none⟩]
        : List ResolvedRow).map (fun r => r.toAlnRow)) [soloRowA, soloRowB] ∧
    ∀ r ∈ ([⟨⟨soloRowA, 101 / 2⟩, none⟩, ⟨⟨soloRowB, 25⟩, none⟩] : List ResolvedRow),
      r.ParalogStatus = none :=
  paralog_resolver_singleton_noop [soloRowA, soloRowB] [("bio", ⟨0, 0, 0, 0⟩)]
    [⟨⟨soloRowA, 101 / 2⟩, none⟩, ⟨⟨soloRowB, 25⟩, none⟩]
    (by simp [soloRowA, soloRowB])
    (by simp [soloRowA, soloRowB])
    (by norm_num [resolve_paralogs, scoreRows, calculate_synteny_score_checked,
      calculate_synteny_score, soloRowA, soloRowB, sortScoreDesc, insertDesc,
      dedupFirst, filterP, resolveGroup, mergeStatus, findFirst, apply_label,
      groupContrib, ParalogMetrics.zero, ParalogMetrics.add,
      List.foldl_cons, List.foldl_nil, List.filterMap_cons, List.filterMap_nil,
      show ("s2" : String) ≠ "s1" from by decide,
      show ("s1" : String) ≠ "s2" from by decide,
      show ("s1-1" : String) ≠ "s2-1" from by decide,
      show ("s2-1" : String) ≠ "s1-1" from by decide] <;> decide)

/-- Transcript lookup for the C2 failing input: gene gA on chr1, gene
gB split between chr1 and chr2, names equal to alignment ids. -/
def txLookupC2 : String → TxObj := fun n =>
  if n = "tA-1" then ⟨"chr1", 0, 10, "tA-1"⟩
  else if n = "tB1-1" then ⟨"chr1", 100, 200, "tB1-1"⟩
  else ⟨"chr2", 0, 50, "tB2-1"⟩

def rowA : ResolvedRow := ⟨⟨⟨"tA-1", "tA", "gA", "bio", 100, 100, 0, 1, TxCls.passing⟩, 50⟩, none⟩

def rowB1 : ResolvedRow := ⟨⟨⟨"tB1-1", "tB1", "gB", "bio", 100, 100, 0, 1, TxCls.passing⟩, 70⟩, none⟩

def rowB2 : ResolvedRow := ⟨⟨⟨"tB2-1", "tB2", "gB", "bio", 50, 50, 0, 1, TxCls.passing⟩, 40⟩, none⟩

/-- C2 (failing input): gene gB occupies two location clusters with two
transcripts (tB1 winning on chr1, tB2 on chr2), yet split-gene
resolution appends exactly one status row for gB, and that row carries
the stale loop variable tx_id left over from gene gA's list
comprehension, so the chr2 flag is recorded against transcript tA of a
different gene and no row at all is recorded for tB1 or tB2; the
subsequent inner join on TranscriptId then drops gene gB from the
output entirely and duplicates gene gA's row. -/
theorem split_status_single_stale_row :
    dedupFirst [] ([rowA, rowB1, rowB2].map (fun r => r.GeneId)) = ["gA", "gB"] ∧
    splitGeneLoop txLookupC2 [rowA, rowB1, rowB2] ["gA", "gB"] none =
      some ([⟨"tA", none, false⟩, ⟨"tA", some "chr2", false⟩], ["tB1", "tB2"], 1, 0) ∧
    resolve_split_genes [rowA, rowB1, rowB2] txLookupC2 false =
      some (⟨1, 0, none⟩, [⟨rowA, none, false⟩, ⟨rowA, some "chr2", false⟩]) := by
  refine ⟨?_, ?_, ?_⟩
  · simp [dedupFirst, rowA, rowB1, rowB2]
  · simp [splitGeneLoop, cluster_gene, clusterMean, find_best_cluster,
      is_split_chrom_gene, is_split_same_chrom_gene, gap_merge_intervals,
      sortIvByStart, insertIvAsc, findIdxFirst, Iv.overlap, TxObj.interval,
      dedupFirst, filterP, txLookupC2, rowA, rowB1, rowB2,
      List.foldl_cons, List.foldl_nil, List.filterMap_cons, List.filterMap_nil,
      List.getLast?,
      show ¬ (70 : ℚ) < 40 from by norm_num,
      show String.intercalate "," ["chr2"] = "chr2" from by decide]
  · simp [resolve_split_genes, splitGeneLoop, cluster_gene, clusterMean,
      find_best_cluster, is_split_chrom_gene, is_split_same_chrom_gene,
      gap_merge_intervals, sortIvByStart, insertIvAsc, findIdxFirst, Iv.overlap,
      TxObj.interval, dedupFirst, filterP, txLookupC2, rowA, rowB1, rowB2,
      List.foldl_cons, List.foldl_nil, List.filterMap_cons, List.filterMap_nil,
      List.getLast?,
      show ¬ (70 : ℚ) < 40 from by norm_num,
      show String.intercalate "," ["chr2"] = "chr2" from by decide]

/-- Transcript lookup for the C3 failing input (scenario D): gene gG
split between chr1 (winning, mean score 70) and chr2 (mean score 40),
transcript names and alignment ids coinciding, preceded by the
single-cluster gene gA. -/
def txLookupC3 : String → TxObj := fun n =>
  if n = "tA" then ⟨"chr1", 0, 10, "tA"⟩
  else if n = "T1" then ⟨"chr1", 100, 200, "T1"⟩
  else ⟨"chr2", 0, 50, "T2"⟩

def rowA3 : ResolvedRow := ⟨⟨⟨"tA", "tA", "gA", "bio", 100, 100, 0, 1, TxCls.passing⟩, 50⟩, none⟩

def rowT1 : ResolvedRow := ⟨⟨⟨"T1", "T1", "gG", "bio", 100, 100, 0, 1, TxCls.passing⟩, 70⟩, none⟩

def rowT2 : ResolvedRow := ⟨⟨⟨"T2", "T2", "gG", "bio", 50, 50, 0, 1, TxCls.passing⟩, 40⟩, none⟩

/-- C3 (failing input, scenario D): with removal enabled, the chr2
transcript T2 is absent and the contig-split counter and removal
counter are both 1 as the claim says, but the winning-cluster survivor
T1 is also absent from the output (the single stale status row names
transcript tA of gene gA, so the inner join drops every row of gene
gG), and the chr2 flag is attached to gene gA's duplicated row instead
of the survivors of gene gG. -/
theorem split_removal_drops_winning_cluster_rows :
    resolve_split_genes [rowA3, rowT1, rowT2] txLookupC3 true =
      some (⟨1, 0, some 1⟩, [⟨rowA3, none, false⟩, ⟨rowA3, some "chr2", false⟩]) ∧
    filterP (fun f : FinalRow => f.TranscriptId = "T1")
      [(⟨rowA3, none, false⟩ : FinalRow), ⟨rowA3, some "chr2", false⟩] = [] := by
  constructor
  · simp [resolve_split_genes, splitGeneLoop, cluster_gene, clusterMean,
      find_best_cluster, is_split_chrom_gene, is_split_same_chrom_gene,
      gap_merge_intervals, sortIvByStart, insertIvAsc, findIdxFirst, Iv.overlap,
      TxObj.interval, dedupFirst, filterP, txLookupC3, rowA3, rowT1, rowT2,
      List.foldl_cons, List.foldl_nil, List.filterMap_cons, List.filterMap_nil,
      List.getLast?,
      show ¬ (70 : ℚ) < 40 from by norm_num,
      show String.intercalate "," ["chr2"] = "chr2" from by decide]
  · simp [filterP, rowA3]

/-- C6: the distribution fitter's edge cases: a biotype with no
non-unique records has every record labeled passing with the cutoff
recorded as absent; a biotype with no unique records has every record
labeled failing with the cutoff absent; a fitted cutoff that is nan or
infinite yields every record labeled passing while the degenerate
cutoff value is still recorded. -/
theorem fitter_edge_cases (df : List FitRow) :
    (filterP (fun r => ¬ r.Paralogy = 1) df = [] →
      fit_biotype df = (df.map (fun r => (r.AlignmentId, TxCls.passing)), none)) ∧
    (filterP (fun r => ¬ r.Paralogy = 1) df ≠ [] →
      filterP (fun r => r.Paralogy = 1) df = [] →
      fit_biotype df = (df.map (fun r => (r.AlignmentId, TxCls.failing)), none)) ∧
    (filterP (fun r => ¬ r.Paralogy = 1) df ≠ [] →
      filterP (fun r => r.Paralogy = 1) df ≠ [] →
      (RVal.isnan (find_cutoff (filterP (fun r => r.Paralogy = 1) df))
        ∨ RVal.isinf (find_cutoff (filterP (fun r => r.Paralogy = 1) df))) →
      fit_biotype df = (df.map (fun r => (r.AlignmentId, TxCls.passing)),
        some (find_cutoff (filterP (fun r => r.Paralogy = 1) df)))) := by
  refine ⟨?_, ?_, ?_⟩
  · intro h
    unfold fit_biotype
    rw [if_pos (List.length_eq_zero.mpr h)]
  · intro h1 h2
    unfold fit_biotype
    rw [if_neg (fun hc => h1 (List.length_eq_zero.mp hc)),
      if_pos (List.length_eq_zero.mpr h2)]
  · intro h1 h2 hdeg
    unfold fit_biotype
    rw [if_neg (fun hc => h1 (List.length_eq_zero.mp hc)),
      if_neg (fun hc => h2 (List.length_eq_zero.mp hc)), if_pos hdeg]

theorem fitter_edge_cases_witness :
    fit_biotype [⟨"a", "bio", 95, 1⟩] = ([("a", TxCls.passing)], none) ∧
    fit_biotype [⟨"b", "bio", 80, 2⟩] = ([("b", TxCls.failing)], none) ∧
    fit_biotype [⟨"u", "bio", 101, 1⟩, ⟨"v", "bio", 50, 2⟩]
      = ([("u", TxCls.passing), ("v", TxCls.passing)],
         some (find_cutoff (filterP (fun r => r.Paralogy = 1)
           [⟨"u", "bio", 101, 1⟩, ⟨"v", "bio", 50, 2⟩]))) :=
  ⟨(fitter_edge_cases [⟨"a", "bio", 95, 1⟩]).1 (by simp [filterP]),
   (fitter_edge_cases [⟨"b", "bio", 80, 2⟩]).2.1 (by simp [filterP]) (by simp [filterP]),
   (fitter_edge_cases [⟨"u", "bio", 101, 1⟩, ⟨"v", "bio", 50, 2⟩]).2.2
     (by simp [filterP]) (by simp [filterP])
     (Or.inl (by
       simp [filterP, find_cutoff, norm_fit, transform_data, removeHundred, logR,
         meanR, sumR, RVal.add, RVal.neg, RVal.sub, RVal.sq, RVal.sqrtV, RVal.expV,
         RVal.divNat, RVal.isnan,
         show ¬ (101 : ℝ) = 100 from by norm_num,
         show ¬ (0 : ℝ) < 100 - 101 from by norm_num,
         show ¬ (101 : ℝ) < 100 from by norm_num,
         show ¬ (100 - 101 : ℝ) = 0 from by norm_num]))⟩

theorem sumR_map_fin (xs : List ℝ) : sumR (xs.map RVal.fin) = RVal.fin xs.sum := by
  induction xs with
  | nil => rfl
  | cons x l ih =>
    simp only [List.map_cons, sumR, List.foldr_cons]
    have hs : List.foldr RVal.add (RVal.fin 0) (l.map RVal.fin) = RVal.fin l.sum := ih
    rw [hs]
    simp [RVal.add, List.sum_cons]

theorem meanR_map_fin (xs : List ℝ) (h : xs ≠ []) :
    meanR (xs.map RVal.fin) = RVal.fin (xs.sum / xs.length) := by
  cases xs with
  | nil => exact absurd rfl h
  | cons x l =>
    simp only [meanR, List.map_cons, sumR_map_fin]
    rw [show sumR (RVal.fin x :: l.map RVal.fin) = RVal.fin ((x :: l).sum) from
      sumR_map_fin (x :: l)]
    simp only [RVal.divNat, List.length_cons, List.length_map]
    rw [if_neg (Nat.succ_ne_zero l.length)]

theorem norm_fit_map_fin (xs : List ℝ) (h : xs ≠ []) :
    norm_fit (xs.map RVal.fin) = (RVal.fin (spec_mu xs), RVal.fin (spec_sigma xs)) := by
  unfold norm_fit spec_mu spec_sigma
  rw [meanR_map_fin xs h]
  have hmap : (xs.map RVal.fin).map
      (fun v => RVal.sq (RVal.sub v (RVal.fin (xs.sum / xs.length))))
      = (xs.map (fun x => (x - xs.sum / xs.length) ^ 2)).map RVal.fin := by
    rw [List.map_map, List.map_map]
    refine List.map_congr_left ?_
    intro x _
    simp only [Function.comp_apply, RVal.sub, RVal.neg, RVal.add, RVal.sq]
    rw [← sub_eq_add_neg]
  rw [hmap, meanR_map_fin _ (by simpa using h)]
  have hlen : ((xs.map (fun x => (x - xs.sum / xs.length) ^ 2)).length : ℝ)
      = (xs.length : ℝ) := by
    rw [List.length_map]
  rw [hlen]
  have hnn : 0 ≤ (xs.map (fun x => (x - xs.sum / xs.length) ^ 2)).sum / (xs.length : ℝ) := by
    apply div_nonneg
    · apply List.sum_nonneg
      intro y hy
      obtain ⟨x, _, rfl⟩ := List.mem_map.mp hy
      positivity
    · positivity
  simp only [RVal.sqrtV, if_pos hnn, spec_mu]

section FitterTheoremSection

open scoped Classical

theorem removeHundred_eq_filterP (l : List ℝ) :
    removeHundred l = filterP (fun i => ¬ i = 100) l := by
  induction l with
  | nil => rfl
  | cons x xs ih =>
    by_cases hx : x = (100 : ℝ)
    · simp only [removeHundred, filterP]
      rw [if_pos hx, if_neg (fun hcon => hcon hx), ih]
    · simp only [removeHundred, filterP]
      rw [if_neg hx, if_pos hx, ih]

theorem transform_data_fin (l : List ℝ) (h : ∀ x ∈ l, x ≤ 100) :
    transform_data l
      = ((filterP (fun i => ¬ i = 100) l).map (fun i => -Real.log (100 - i))).map
          RVal.fin := by
  unfold transform_data
  rw [removeHundred_eq_filterP, List.map_map]
  refine List.map_congr_left ?_
  intro i hi
  obtain ⟨hil, hine⟩ := (mem_filterP _ l i).mp hi
  have hpos : (0 : ℝ) < 100 - i := by
    rcases lt_or_eq_of_le (h i hil) with hlt | heq
    · linarith
    · exact absurd heq hine
  simp only [Function.comp_apply, logR, if_pos hpos, RVal.neg]

theorem find_cutoff_spec (u : List FitRow)
    (hle : ∀ r ∈ u, r.TransMapIdentity ≤ 100)
    (hex : ∃ r ∈ u, r.TransMapIdentity < 100) :
    find_cutoff u = RVal.fin (spec_cutoff (u.map (fun r => r.TransMapIdentity))) := by
  have hids : ∀ x ∈ u.map (fun r => r.TransMapIdentity), x ≤ 100 := by
    intro x hx
    obtain ⟨r, hr, rfl⟩ := List.mem_map.mp hx
    exact hle r hr
  have htrans : transform_data (u.map (fun r => r.TransMapIdentity))
      = (spec_transform (u.map (fun r => r.TransMapIdentity))).map RVal.fin := by
    rw [transform_data_fin _ hids]
    rfl
  have hne : spec_transform (u.map (fun r => r.TransMapIdentity)) ≠ [] := by
    obtain ⟨r, hr, hrlt⟩ := hex
    intro hnil
    have hmem : r.TransMapIdentity
        ∈ filterP (fun i => ¬ i = 100) (u.map (fun q => q.TransMapIdentity)) :=
      (mem_filterP _ _ _).mpr ⟨List.mem_map_of_mem _ hr, ne_of_lt hrlt⟩
    unfold spec_transform at hnil
    rw [List.map_eq_nil_iff.mp hnil] at hmem
    exact absurd hmem (List.not_mem_nil _)
  unfold find_cutoff spec_cutoff
  rw [htrans, norm_fit_map_fin _ hne]
  simp only [RVal.sub, RVal.neg, RVal.add, RVal.expV]
  rw [← sub_eq_add_neg, ← sub_eq_add_neg]

/-- C5: for a biotype with both unique and non-unique records, with
identities at most 100 and at least one unique identity strictly below
100 (so that the transformed sample is nonempty and the float fit does
not degenerate), the fitted cutoff equals 100 - exp(-(mu - sigma)),
where mu and sigma are the maximum-likelihood normal fit of
-ln(100 - identity) over the unique-sample identities excluding the
value 100, and an alignment of the biotype is classified passing iff
its TransMapIdentity is at least that cutoff. -/
theorem fitter_cutoff_formula (df : List FitRow)
    (hNU : filterP (fun r => ¬ r.Paralogy = 1) df ≠ [])
    (hU : filterP (fun r => r.Paralogy = 1) df ≠ [])
    (hle : ∀ r ∈ df, r.TransMapIdentity ≤ 100)
    (hex : ∃ r ∈ filterP (fun r => r.Paralogy = 1) df, r.TransMapIdentity < 100) :
    find_cutoff (filterP (fun r => r.Paralogy = 1) df)
      = RVal.fin (spec_cutoff ((filterP (fun r => r.Paralogy = 1) df).map
          (fun r => r.TransMapIdentity))) ∧
    (fit_biotype df).2 = some (RVal.fin (spec_cutoff
      ((filterP (fun r => r.Paralogy = 1) df).map (fun r => r.TransMapIdentity)))) ∧
    (fit_biotype df).1 = df.map (fun r => (r.AlignmentId,
      if spec_cutoff ((filterP (fun q => q.Paralogy = 1) df).map
            (fun q => q.TransMapIdentity)) ≤ r.TransMapIdentity
       then TxCls.passing else TxCls.failing)) := by
  have hu2 : ∀ r ∈ filterP (fun r => r.Paralogy = 1) df, r.TransMapIdentity ≤ 100 :=
    fun r hr => hle r ((mem_filterP _ df r).mp hr).1
  have ha := find_cutoff_spec (filterP (fun r => r.Paralogy = 1) df) hu2 hex
  have hbranch : fit_biotype df = (df.map (fun r => (r.AlignmentId,
      if RVal.geR r.TransMapIdentity (RVal.fin (spec_cutoff
          ((filterP (fun q => q.Paralogy = 1) df).map (fun q => q.TransMapIdentity))))
       then TxCls.passing else TxCls.failing)),
      some (RVal.fin (spec_cutoff
        ((filterP (fun q => q.Paralogy = 1) df).map (fun q => q.TransMapIdentity))))) := by
    unfold fit_biotype
    rw [if_neg (fun hc => hNU (List.length_eq_zero.mp hc)),
      if_neg (fun hc => hU (List.length_eq_zero.mp hc)), ha,
      if_neg (by simp [RVal.isnan, RVal.isinf])]
  refine ⟨ha, ?_, ?_⟩
  · rw [hbranch]
  · rw [hbranch]
    refine List.map_congr_left ?_
    intro r _
    exact congrArg (Prod.mk r.AlignmentId) (if_congr Iff.rfl rfl rfl)


/-- Biotype group used for the C5 witness: a unique row at identity
100 (present in the data, excluded from the transformed fit sample),
two unique rows at identity 99, and one paralogous row at identity
50. -/
def fitW : List FitRow :=
  [⟨"h1", "bio", 100, 1⟩, ⟨"u1", "bio", 99, 1⟩, ⟨"u2", "bio", 99, 1⟩, ⟨"n1", "bio", 50, 2⟩]

theorem fitter_cutoff_formula_witness :
    find_cutoff (filterP (fun r => r.Paralogy = 1) fitW)
      = RVal.fin (spec_cutoff ((filterP (fun r => r.Paralogy = 1) fitW).map
          (fun r => r.TransMapIdentity))) ∧
    (fit_biotype fitW).2 = some (RVal.fin (spec_cutoff
      ((filterP (fun r => r.Paralogy = 1) fitW).map (fun r => r.TransMapIdentity)))) ∧
    (fit_biotype fitW).1 = fitW.map (fun r => (r.AlignmentId,
      if spec_cutoff ((filterP (fun q => q.Paralogy = 1) fitW).map
            (fun q => q.TransMapIdentity)) ≤ r.TransMapIdentity
       then TxCls.passing else TxCls.failing)) :=
  fitter_cutoff_formula fitW (by simp [fitW, filterP]) (by simp [fitW, filterP])
    (by
      intro r hr
      simp only [fitW, List.mem_cons, List.not_mem_nil, or_false] at hr
      rcases hr with rfl | rfl | rfl | rfl <;> norm_num)
    ⟨⟨"u1", "bio", 99, 1⟩, by simp [fitW, filterP], by norm_num⟩

/-- Values the transformed-sample pipeline can produce: finite or nan
(infinities cannot arise because the value 100 is excluded before the
log). -/
def RVal.FN : RVal → Prop := fun v => v = RVal.nan ∨ ∃ r, v = RVal.fin r

theorem FN_add {a b : RVal} (ha : a.FN) (hb : b.FN) : (RVal.add a b).FN := by
  rcases ha with rfl | ⟨x, rfl⟩ <;> rcases hb with rfl | ⟨y, rfl⟩ <;>
    simp [RVal.add, RVal.FN]

theorem FN_neg {a : RVal} (ha : a.FN) : (RVal.neg a).FN := by
  rcases ha with rfl | ⟨x, rfl⟩ <;> simp [RVal.neg, RVal.FN]

theorem FN_sub {a b : RVal} (ha : a.FN) (hb : b.FN) : (RVal.sub a b).FN :=
  FN_add ha (FN_neg hb)

theorem FN_sq {a : RVal} (ha : a.FN) : a.sq.FN := by
  rcases ha with rfl | ⟨x, rfl⟩ <;> simp [RVal.sq, RVal.FN]

theorem FN_divNat {a : RVal} (ha : a.FN) (n : ℕ) : (a.divNat n).FN := by
  rcases ha with rfl | ⟨x, rfl⟩ <;> by_cases hn : n = 0 <;>
    simp [RVal.divNat, RVal.FN, hn]

theorem FN_sqrtV {a : RVal} (ha : a.FN) : a.sqrtV.FN := by
  rcases ha with rfl | ⟨x, rfl⟩
  · simp [RVal.sqrtV, RVal.FN]
  · by_cases hx : (0 : ℝ) ≤ x <;> simp [RVal.sqrtV, RVal.FN, hx]

theorem FN_sumR (l : List RVal) (h : ∀ x ∈ l, x.FN) : (sumR l).FN := by
  induction l with
  | nil => exact Or.inr ⟨0, rfl⟩
  | cons x xs ih =>
    have hx := h x (List.mem_cons_self x xs)
    have hxs := ih (fun y hy => h y (List.mem_cons_of_mem x hy))
    exact FN_add hx hxs

theorem FN_meanR (l : List RVal) (h : ∀ x ∈ l, x.FN) : (meanR l).FN := by
  cases l with
  | nil => exact Or.inl rfl
  | cons x xs =>
    exact FN_divNat (FN_sumR (x :: xs) h) (x :: xs).length

theorem removeHundred_mem {l : List ℝ} {x : ℝ} (hx : x ∈ removeHundred l) : ¬ x = 100 := by
  induction l with
  | nil => simp [removeHundred] at hx
  | cons y ys ih =>
    by_cases hy : y = (100 : ℝ)
    · rw [show removeHundred (y :: ys) = removeHundred ys from by
        simp only [removeHundred]; rw [if_pos hy]] at hx
      exact ih hx
    · rw [show removeHundred (y :: ys) = y :: removeHundred ys from by
        simp only [removeHundred]; rw [if_neg hy]] at hx
      rcases List.mem_cons.mp hx with rfl | h2
      · exact hy
      · exact ih h2

theorem transform_data_FN (idents : List ℝ) : ∀ x ∈ transform_data idents, x.FN := by
  intro x hx
  unfold transform_data at hx
  obtain ⟨i, hi, rfl⟩ := List.mem_map.mp hx
  have hne : ¬ i = 100 := removeHundred_mem hi
  unfold logR
  by_cases hpos : (0 : ℝ) < 100 - i
  · rw [if_pos hpos]
    exact Or.inr ⟨-(Real.log (100 - i)), rfl⟩
  · rw [if_neg hpos, if_neg (fun h0 => hne (by linarith))]
    exact Or.inl rfl

theorem find_cutoff_fin_lt (u : List FitRow) (c : ℝ)
    (h : find_cutoff u = RVal.fin c) : c < 100 := by
  have hdata := transform_data_FN (u.map (fun r => r.TransMapIdentity))
  have hmu : (meanR (transform_data (u.map (fun r => r.TransMapIdentity)))).FN :=
    FN_meanR _ hdata
  have hsq : ∀ x ∈ (transform_data (u.map (fun r => r.TransMapIdentity))).map
      (fun x => RVal.sq (RVal.sub x
        (meanR (transform_data (u.map (fun r => r.TransMapIdentity)))))), x.FN := by
    intro x hx
    obtain ⟨y, hy, rfl⟩ := List.mem_map.mp hx
    exact FN_sq (FN_sub (hdata y hy) hmu)
  have hsigma := FN_sqrtV (FN_meanR _ hsq)
  have hW := FN_sub hmu hsigma
  unfold find_cutoff norm_fit at h
  rcases hW with hnan | ⟨w, hw⟩
  · rw [hnan] at h
    simp [RVal.neg, RVal.expV, RVal.sub, RVal.add] at h
  · rw [hw] at h
    simp only [RVal.neg, RVal.expV, RVal.sub, RVal.add, RVal.fin.injEq] at h
    have hpos := Real.exp_pos (-w)
    linarith

/-- C10: for a biotype whose fitted cutoff is finite, that cutoff is
strictly below 100 (100 - exp of a real is less than 100), identities
exactly 100 are excluded from the transformed fit sample, and every
alignment of the biotype with TransMapIdentity exactly 100 is labeled
passing. -/
theorem identity_hundred_passes (df : List FitRow) (c : ℝ)
    (hNU : filterP (fun r => ¬ r.Paralogy = 1) df ≠ [])
    (hU : filterP (fun r => r.Paralogy = 1) df ≠ [])
    (hfin : find_cutoff (filterP (fun r => r.Paralogy = 1) df) = RVal.fin c) :
    c < 100 ∧
    (∀ idents : List ℝ, transform_data (100 :: idents) = transform_data idents) ∧
    (fit_biotype df).2 = some (RVal.fin c) ∧
    (∀ r ∈ df, r.TransMapIdentity = 100 →
      (r.AlignmentId, TxCls.passing) ∈ (fit_biotype df).1) := by
  have hc := find_cutoff_fin_lt _ c hfin
  have hbranch : fit_biotype df = (df.map (fun r => (r.AlignmentId,
      if RVal.geR r.TransMapIdentity (RVal.fin c) then TxCls.passing else TxCls.failing)),
      some (RVal.fin c)) := by
    unfold fit_biotype
    rw [if_neg (fun hcon => hNU (List.length_eq_zero.mp hcon)),
      if_neg (fun hcon => hU (List.length_eq_zero.mp hcon)), hfin,
      if_neg (by simp [RVal.isnan, RVal.isinf])]
  refine ⟨hc, ?_, ?_, ?_⟩
  · intro idents
    simp [transform_data, removeHundred]
  · rw [hbranch]
  · intro r hr h100
    rw [hbranch]
    have heq : (r.AlignmentId,
        if RVal.geR r.TransMapIdentity (RVal.fin c) then TxCls.passing else TxCls.failing)
        = (r.AlignmentId, TxCls.passing) := by
      rw [h100]
      have hpass : RVal.geR (100 : ℝ) (RVal.fin c) := le_of_lt hc
      rw [if_pos hpass]
    exact List.mem_map.mpr ⟨r, hr, heq⟩

/-- Biotype group used for the C10 witness: a unique row at identity
100 (excluded from the fit), a unique row at identity 99, and one
paralogous row; the fitted cutoff comes out as exactly 99. -/
def fitW10 : List FitRow := [⟨"h1", "bio", 100, 1⟩, ⟨"u1", "bio", 99, 1⟩, ⟨"n1", "bio", 50, 2⟩]

theorem identity_hundred_passes_witness :
    (99 : ℝ) < 100 ∧
    (∀ idents : List ℝ, transform_data (100 :: idents) = transform_data idents) ∧
    (fit_biotype fitW10).2 = some (RVal.fin 99) ∧
    (∀ r ∈ fitW10, r.TransMapIdentity = 100 →
      (r.AlignmentId, TxCls.passing) ∈ (fit_biotype fitW10).1) :=
  identity_hundred_passes fitW10 99 (by simp [fitW10, filterP]) (by simp [fitW10, filterP])
    (by norm_num [fitW10, filterP, find_cutoff, norm_fit, transform_data, removeHundred,
      logR, meanR, sumR, RVal.add, RVal.neg, RVal.sub, RVal.sq, RVal.sqrtV, RVal.expV,
      RVal.divNat, Real.log_one, Real.sqrt_zero, Real.exp_zero,
      show (99 : ℝ) ≠ 100 from by norm_num,
      show (0 : ℝ) < 100 - 99 from by norm_num,
      show (99 : ℝ) < 100 from by norm_num])

end FitterTheoremSection
